import Mathlib

/-!
Verification of the monkey-interpreter repository (Rust): a shallow embedding
of its tokenizer (src/lex.rs), Pratt parser (src/parse/mod.rs), AST rendering
(src/ast.rs) and tree-walking evaluator (src/eval/mod.rs, src/eval/object.rs,
src/eval/env.rs), together with theorems settling the specification's claims.

Conventions of the embedding:
* Source text is a list of bytes (`List Nat`, each element a byte value), as
  the Rust lexer works on `Vec<u8>`.
* Machine integers (`i32` in `ast.rs` / `object.rs`) are `Int` with explicit
  range conditions where overflow matters.
* A host-level panic (a `todo!()`, or an overflowing / dividing-by-zero `i32`
  arithmetic operation) is modelled as `none` in an `Option` result; normal
  values are `some`.
* Fallible parsing returns `Except ParseError` next to the updated parser
  state, mirroring the `Result` + `&mut self` style of the Rust code.
-/

namespace Monkey

/-! ## Bytes and character classes (Rust `u8::is_ascii_*`) -/

/-- Bytes of an ASCII string: for ASCII text this equals Rust's
`String::into_bytes`. All concrete inputs in this file are ASCII. -/
def strBytes (s : String) : List Nat := s.toList.map Char.toNat

/-- Byte at index `i`, with 0 (NUL) past the end: this is exactly the
behaviour of `Lexer::read_char` / `peek_next_char`, which store 0 in
`self.ch` when `read_position >= input.len()`. -/
def byteAt (input : List Nat) (i : Nat) : Nat := input.getD i 0

/-- Rust `u8::is_ascii_whitespace`: space, HT, LF, FF, CR. -/
def isWhitespace (b : Nat) : Bool := b == 32 || b == 9 || b == 10 || b == 12 || b == 13

/-- Rust `u8::is_ascii_alphabetic`. -/
def isLetter (b : Nat) : Bool := (65 ≤ b && b ≤ 90) || (97 ≤ b && b ≤ 122)

/-- Rust `u8::is_ascii_digit`. -/
def isDigit (b : Nat) : Bool := 48 ≤ b && b ≤ 57

/-- Identifier characters: `is_ascii_alphabetic() || ch == b'_'` (both the
start set of the `b'a'..=b'z' | b'A'..=b'Z' | b'_'` match arm and the
continuation set of `read_identifier`). -/
def isIdentChar (b : Nat) : Bool := isLetter b || b == 95

theorem ne_zero_of_isWhitespace {b : Nat} (h : isWhitespace b = true) : b ≠ 0 := by
  rintro rfl; simp [isWhitespace] at h

theorem ne_zero_of_isIdentChar {b : Nat} (h : isIdentChar b = true) : b ≠ 0 := by
  rintro rfl; simp [isIdentChar, isLetter] at h

theorem ne_zero_of_isDigit {b : Nat} (h : isDigit b = true) : b ≠ 0 := by
  rintro rfl; simp [isDigit] at h

theorem byteAt_of_le {input : List Nat} {i : Nat} (h : input.length ≤ i) :
    byteAt input i = 0 := by
  simp [byteAt, List.getD, List.getElem?_eq_none h]

theorem lt_of_byteAt_ne {input : List Nat} {i : Nat} (h : byteAt input i ≠ 0) :
    i < input.length := by
  by_contra hc
  exact h (byteAt_of_le (Nat.le_of_not_lt hc))

/-! ## Tokens (src/token.rs)

The token type carries the literal text of identifier / integer tokens as the
byte run the lexer sliced out of the input (`Token::Ident(String)`,
`Token::Int(String)` in the source).  Constructors named after Rust variants;
`letTok`/`ifTok`/... avoid Lean keywords. -/

inductive Token where
  | ident (s : List Nat)
  | int (s : List Nat)
  | assign | plus | minus | bang | asterisk | slash
  | lessThan | greaterThan | equal | notEqual
  | comma | semicolon | openParen | closeParen | openCurly | closeCurly
  | letTok | function | ifTok | elseTok | returnTok | trueTok | falseTok
  | eof | illegal
deriving DecidableEq, Repr

/-- Rust `Token::is`: equality, except payload-carrying kinds compare by kind
only.  (The source tests `self == token` first and then the payload-ignoring
arms; the order does not change the result.) -/
def Token.is (a b : Token) : Bool :=
  match a, b with
  | .ident _, .ident _ => true
  | .int _, .int _ => true
  | x, y => x == y

/-- Rust `Token::is_ident` used by `Parser::expect_ident`. -/
def Token.isIdent (a : Token) : Bool :=
  match a with
  | .ident _ => true
  | _ => false

/-! ## Lexer (src/lex.rs)

The Rust lexer state is `(input, position, read_position, ch)` with the
invariant `ch = input[position] or 0` (maintained by `read_char`); we
represent the state by the remaining byte list `input[position..]`, so that
`self.ch` is the head of the remainder (0 when it is empty), `read_char` is
`tail`, and `peek_next_char` is the second element (0 when absent). -/

/-- `self.ch`: the current byte, 0 at end of buffer. -/
def chOf : List Nat → Nat
  | [] => 0
  | b :: _ => b

/-- The string a byte run denotes (`String::from_utf8_lossy(..).to_string()`
in the source).  The runs this is applied to are identifier and digit runs,
which consist of ASCII bytes only, where the lossy conversion is exact. -/
def asString (bs : List Nat) : String := String.mk (bs.map Char.ofNat)

/-- `Lexer::lookup_identifier`: the fixed keyword table. -/
def lookupIdentifier (bs : List Nat) : Token :=
  if bs = strBytes "let" then .letTok
  else if bs = strBytes "fn" then .function
  else if bs = strBytes "if" then .ifTok
  else if bs = strBytes "else" then .elseTok
  else if bs = strBytes "return" then .returnTok
  else if bs = strBytes "true" then .trueTok
  else if bs = strBytes "false" then .falseTok
  else .ident bs

/-- Body of `Lexer::next_token` after `skip_whitespace`: scan one token from
the remainder, returning it with the remainder after it.  The
fixed byte values are the source's byte literals (`b','` = 44, ...); `==` and
`!=` use one byte of look-ahead exactly as `peek_next_char` does; identifier
and digit runs are maximal (`read_identifier` / `read_number`, which return
early without the trailing `read_char`).  The `0 => Eof` arm is listed among
the literals although the source lists it after the identifier/digit range
arms: the classes are disjoint (neither contains 0), so the order is
immaterial. -/
def scanToken : List Nat → Token × List Nat
  | [] => (.eof, [])
  | b :: rest =>
    match b with
    | 44 => (.comma, rest)
    | 59 => (.semicolon, rest)
    | 40 => (.openParen, rest)
    | 41 => (.closeParen, rest)
    | 123 => (.openCurly, rest)
    | 125 => (.closeCurly, rest)
    | 61 =>
      match rest with
      | 61 :: rest2 => (.equal, rest2)
      | _ => (.assign, rest)
    | 43 => (.plus, rest)
    | 45 => (.minus, rest)
    | 33 =>
      match rest with
      | 61 :: rest2 => (.notEqual, rest2)
      | _ => (.bang, rest)
    | 42 => (.asterisk, rest)
    | 47 => (.slash, rest)
    | 60 => (.lessThan, rest)
    | 62 => (.greaterThan, rest)
    | 0 => (.eof, rest)
    | _ =>
      if isIdentChar b then
        (lookupIdentifier ((b :: rest).takeWhile isIdentChar),
          (b :: rest).dropWhile isIdentChar)
      else if isDigit b then
        (.int ((b :: rest).takeWhile isDigit),
          (b :: rest).dropWhile isDigit)
      else (.illegal, rest)

/-- `Lexer::next_token` = `skip_whitespace` + the scan above. -/
def nextToken (rem : List Nat) : Token × List Nat :=
  scanToken (rem.dropWhile isWhitespace)

/-- The token sequence of the `Iterator for Lexer` implementation: `next`
returns `None` exactly when `self.ch == 0`, and otherwise yields
`next_token()`.  The fuel only serves structural termination; each
`next_token` call consumes at least one byte (`nextToken_length_lt`), so the
`input.length + 1` supplied by `tokenize` is never exhausted
(`tokensIterF_congr`). -/
def tokensIterF : Nat → List Nat → List Token
  | 0, _ => []
  | fuel + 1, rem =>
    if chOf rem == 0 then []
    else (nextToken rem).1 :: tokensIterF fuel (nextToken rem).2

/-- Tokenizing via the `Iterator` implementation, from a fresh `Lexer`. -/
def tokenize (input : List Nat) : List Token := tokensIterF (input.length + 1) input

/-- The token stream as the parser consumes it (repeated `next_token` calls):
all tokens produced while the cursor is inside the buffer.  Every
`next_token` call on an exhausted buffer returns `Eof`, which `ParserState`
models by padding the stream with `Token.eof` (see `ParserState.step`). -/
def tokensAllF : Nat → List Nat → List Token
  | 0, _ => []
  | fuel + 1, rem =>
    if rem.isEmpty then []
    else (nextToken rem).1 :: tokensAllF fuel (nextToken rem).2

/-- The materialized parser-facing token stream of an input. -/
def tokensAll (input : List Nat) : List Token := tokensAllF (input.length + 1) input

/-- `next_token` consumes at least one byte of a nonempty remainder. -/
theorem nextToken_length_lt {rem : List Nat} (h : rem ≠ []) :
    (nextToken rem).2.length < rem.length := by
  have hdw : (rem.dropWhile isWhitespace).length ≤ rem.length :=
    (List.dropWhile_sublist isWhitespace).length_le
  have hne : 0 < rem.length := List.length_pos.mpr h
  unfold nextToken scanToken
  split
  · show ([] : List Nat).length < rem.length
    simpa using hne
  rename_i b rest hrem
  have hlen : rest.length + 1 ≤ rem.length := by
    have h2 := hdw
    rw [hrem] at h2
    simpa using h2
  split
  all_goals try (show rest.length < rem.length
                 omega)
  -- the `==` / `!=` look-ahead arms
  all_goals try (split
                 · rename_i rest2
                   show rest2.length < rem.length
                   simp at hlen
                   omega
                 · show rest.length < rem.length
                   omega)
  -- identifier / digit runs and the illegal byte
  split
  · rename_i hid
    show ((b :: rest).dropWhile isIdentChar).length < rem.length
    rw [List.dropWhile_cons_of_pos hid]
    have hd := (List.dropWhile_sublist (l := rest) (p := isIdentChar)).length_le
    omega
  split
  · rename_i hnid hdig
    show ((b :: rest).dropWhile isDigit).length < rem.length
    rw [List.dropWhile_cons_of_pos hdig]
    have hd := (List.dropWhile_sublist (l := rest) (p := isDigit)).length_le
    omega
  · show rest.length < rem.length
    omega

/-- Any two sufficient fuels tokenize identically: the fuel is a structural
termination device, not part of the semantics. -/
theorem tokensIterF_congr :
    ∀ f1 f2 rem, rem.length < f1 → rem.length < f2 →
      tokensIterF f1 rem = tokensIterF f2 rem := by
  intro f1
  induction f1 with
  | zero => intro f2 rem h1 h2; omega
  | succ f ih =>
    intro f2 rem h1 h2
    cases f2 with
    | zero => omega
    | succ g =>
      show tokensIterF (f + 1) rem = tokensIterF (g + 1) rem
      unfold tokensIterF
      by_cases hch : chOf rem == 0
      · simp [hch]
      · simp only [hch, if_neg, Bool.false_eq_true, not_false_eq_true]
        have hne : rem ≠ [] := by
          cases rem with
          | nil => simp [chOf] at hch
          | cons b r => simp
        have := nextToken_length_lt hne
        rw [ih g (nextToken rem).2 (by omega) (by omega)]

/-! ## AST (src/ast.rs, field naming of src/parse/mod.rs)

`Operator` is the closed operator enum.  `Expression`/`Statement` follow the
`Expression`/`Statement` types consumed by `parse/mod.rs` (structurally the
same as `Expr`/`Stmt` of `ast.rs`).  The Rust variants `Prefix` and `Infix`
are named `preOp` and `binOp` here; `Program` and `Block` are both a list of
statements, as `Ast`/`Block` are in the source. -/

inductive Operator where
  | bang | plus | minus | multiplication | division
  | greaterThan | lessThan | equals | notEquals
deriving DecidableEq, Repr

mutual
inductive Expression where
  | ident (s : String)
  | intLiteral (i : Int)
  | booleanLiteral (b : Bool)
  | preOp (op : Operator) (right : Expression)
  | binOp (left : Expression) (op : Operator) (right : Expression)
  | ifExpr (condition : Expression) (consequence : List Statement)
      (alternative : Option (List Statement))
  | funcLiteral (parameters : List Expression) (body : List Statement)
  | call (function : Expression) (arguments : List Expression)
deriving Repr

inductive Statement where
  | letStmt (name : String) (value : Expression)
  | returnStmt (value : Expression)
  | expression (value : Expression)
deriving Repr
end

/-! ## Parse errors and precedence (src/parse/mod.rs) -/

/-- `ParseError` of `parse/mod.rs` (the source spells the field `recieved`). -/
inductive ParseError where
  | unexpectedToken (expected received : Token)
  | expectedExpression
  | parseIntError (s : List Nat)
  | expectedOperator
  | expectedIdentifier
  | expectedStatement
deriving DecidableEq, Repr

/-- `Token::precedence` as the numeric value of the `Precedence` enum:
Lowest = 1, Equality = 2, LessGreater = 3, AddSub = 4, MultDiv = 5,
Prefix = 6, Call = 7. -/
def Token.precedence (t : Token) : Nat :=
  match t with
  | .openParen => 7
  | .asterisk | .slash => 5
  | .plus | .minus => 4
  | .lessThan | .greaterThan => 3
  | .equal | .notEqual => 2
  | _ => 1

/-- `TryFrom<&Token> for Operator`. -/
def operatorOfToken (t : Token) : Except ParseError Operator :=
  match t with
  | .equal => .ok .equals
  | .notEqual => .ok .notEquals
  | .lessThan => .ok .lessThan
  | .greaterThan => .ok .greaterThan
  | .plus => .ok .plus
  | .minus => .ok .minus
  | .asterisk => .ok .multiplication
  | .slash => .ok .division
  | .bang => .ok .bang
  | _ => .error .expectedOperator

/-- Value of a digit-byte run (most significant first). -/
def digitsVal (ds : List Nat) : Nat :=
  ds.foldl (fun a b => a * 10 + (b - 48)) 0

/-- Rust `str::parse::<i32>` restricted to the strings the lexer can put in an
`Int` token: a nonempty all-digit byte run (no sign).  It succeeds exactly
when the value fits in `i32`, i.e. is at most 2147483647. -/
def parseI32 (ds : List Nat) : Option Int :=
  if ds ≠ [] ∧ (∀ b ∈ ds, isDigit b) ∧ digitsVal ds ≤ 2147483647 then
    some (Int.ofNat (digitsVal ds))
  else none

/-! ## Parser state (src/parse/mod.rs)

The Rust parser owns the lexer plus two tokens of look-ahead.  Because every
`next_token` call past the end of the buffer returns `Eof`, the stream the
parser consumes is `tokensAll input 0` padded with an infinite tail of
`Token.eof`; `ParserState.step` realises the padding with `headD .eof`. -/

structure ParserState where
  rest : List Token
  current : Token
  peek : Token
  errors : List ParseError
deriving Repr

/-- `Parser::new`: prime `current` and `peek` from the stream. -/
def ParserState.new (ts : List Token) : ParserState :=
  match ts with
  | [] => ⟨[], .eof, .eof, []⟩
  | [t] => ⟨[], t, .eof, []⟩
  | t1 :: t2 :: r => ⟨r, t1, t2, []⟩

/-- `Parser::step`: current ← peek, peek ← next token from the lexer. -/
def ParserState.step (s : ParserState) : ParserState :=
  { s with current := s.peek, peek := s.rest.headD .eof, rest := s.rest.tail }

/-- `Parser::expect_next`: on success steps past the expected token, on
failure leaves the state unchanged and reports `UnexpectedToken`. -/
def expectNext (s : ParserState) (expected : Token) : ParserState × Option ParseError :=
  if s.peek.is expected then (s.step, none)
  else (s, some (.unexpectedToken expected s.peek))

/-- `Parser::expect_ident`. -/
def expectIdent (s : ParserState) : ParserState × Option ParseError :=
  if s.peek.isIdent then (s.step, none)
  else (s, some .expectedIdentifier)

/-- Record a parse error, as `self.errors.push(e)` does. -/
def ParserState.pushErr (s : ParserState) (e : ParseError) : ParserState :=
  { s with errors := s.errors ++ [e] }

/-! ## The recursive-descent parser

All mutually recursive parsing functions take a fuel argument and recurse on
it structurally; the Rust functions recurse on the (implicitly shrinking)
token stream instead.  Fuel exhaustion returns `ParseError.expectedOperator`,
an error the real parser can never produce (its `TryFrom` conversion is only
reached on tokens already known to be operators), so a run that exhausts its
fuel can never be mistaken for a faithful run; every theorem below supplies
enough fuel for its input. -/

mutual

/-- `Parser::parse_statement`: dispatch on the current token; a failed
statement pushes its error and yields no statement. -/
def parseStatement : Nat → ParserState → ParserState × Option Statement
  | 0, s => (s.pushErr .expectedOperator, none)
  | fuel + 1, s =>
    match s.current with
    | .letTok =>
      match parseLetStatement fuel s with
      | (s, .ok (n, v)) => (s, some (.letStmt n v))
      | (s, .error e) => (s.pushErr e, none)
    | .returnTok =>
      match parseReturnStatement fuel s with
      | (s, .ok v) => (s, some (.returnStmt v))
      | (s, .error e) => (s.pushErr e, none)
    | _ =>
      match parseExpressionStatement fuel s with
      | (s, .ok v) => (s, some (.expression v))
      | (s, .error e) => (s.pushErr e, none)

/-- `Parser::parse_let_statement`: take the identifier out of `peek`, require
`=`, parse the value at `Lowest`, consume an optional `;`. -/
def parseLetStatement : Nat → ParserState → ParserState × Except ParseError (String × Expression)
  | 0, s => (s, .error .expectedOperator)
  | fuel + 1, s =>
    match s.peek with
    | .ident name =>
      let s := s.step
      match expectNext s .assign with
      | (s, some e) => (s, .error e)
      | (s, none) =>
        let s := s.step
        match parseExpression fuel s 1 with
        | (s, .error e) => (s, .error e)
        | (s, .ok value) =>
          let s := if s.peek.is .semicolon then s.step else s
          (s, .ok (asString name, value))
    | _ => (s, .error .expectedIdentifier)

/-- `Parser::parse_return_statement`. -/
def parseReturnStatement : Nat → ParserState → ParserState × Except ParseError Expression
  | 0, s => (s, .error .expectedOperator)
  | fuel + 1, s =>
    let s := s.step
    match parseExpression fuel s 1 with
    | (s, .error e) => (s, .error e)
    | (s, .ok v) =>
      let s := if s.peek.is .semicolon then s.step else s
      (s, .ok v)

/-- `Parser::parse_expression_statement`. -/
def parseExpressionStatement : Nat → ParserState → ParserState × Except ParseError Expression
  | 0, s => (s, .error .expectedOperator)
  | fuel + 1, s =>
    match parseExpression fuel s 1 with
    | (s, .error e) => (s, .error e)
    | (s, .ok v) =>
      let s := if s.peek.is .semicolon then s.step else s
      (s, .ok v)

/-- `Parser::parse_block`: step past `{`, parse statements until `}` or Eof,
and reject a block that ends up with no statements (`ExpectedStatement`). -/
def parseBlock : Nat → ParserState → ParserState × Except ParseError (List Statement)
  | 0, s => (s, .error .expectedOperator)
  | fuel + 1, s =>
    let s := s.step
    match parseBlockLoop fuel s [] with
    | (s, stmts) =>
      if stmts.length < 1 then (s, .error .expectedStatement)
      else (s, .ok stmts)

/-- The `while` loop of `parse_block`. -/
def parseBlockLoop : Nat → ParserState → List Statement → ParserState × List Statement
  | 0, s, acc => (s, acc)
  | fuel + 1, s, acc =>
    if s.current.is .closeCurly || s.current.is .eof then (s, acc)
    else
      match parseStatement fuel s with
      | (s, stOpt) =>
        let acc := match stOpt with
          | some st => acc ++ [st]
          | none => acc
        parseBlockLoop fuel s.step acc

/-- `Parser::parse_expression`: one primary/prefix production selected by the
current token, then the precedence-climbing loop. -/
def parseExpression : Nat → ParserState → Nat → ParserState × Except ParseError Expression
  | 0, s, _ => (s, .error .expectedOperator)
  | fuel + 1, s, curPrec =>
    let primary : ParserState × Except ParseError Expression :=
      match s.current with
      | .ident bs => (s, .ok (.ident (asString bs)))
      | .int bs =>
        match parseI32 bs with
        | some v => (s, .ok (.intLiteral v))
        | none => (s, .error (.parseIntError bs))
      | .trueTok => (s, .ok (.booleanLiteral true))
      | .falseTok => (s, .ok (.booleanLiteral false))
      | .bang => parseUnaryExpression fuel s
      | .minus => parseUnaryExpression fuel s
      | .openParen => parseGroupedExpression fuel s
      | .ifTok => parseIfExpression fuel s
      | .function => parseFunctionLiteralExpression fuel s
      | _ => (s, .error .expectedExpression)
    match primary with
    | (s, .error e) => (s, .error e)
    | (s, .ok e) => parseExpressionLoop fuel s curPrec e

/-- The `while` loop of `parse_expression`: while the current token is not a
semicolon and the peeked token binds tighter than `curPrec`, step and extend
the expression with a call or a binary-operator node. -/
def parseExpressionLoop : Nat → ParserState → Nat → Expression → ParserState × Except ParseError Expression
  | 0, s, _, _ => (s, .error .expectedOperator)
  | fuel + 1, s, curPrec, e =>
    if !(s.current.is .semicolon) && decide (curPrec < s.peek.precedence) then
      let s := s.step
      match
        (match s.current with
         | .openParen => parseFunctionCallExpression fuel s e
         | _ => parseBinExpression fuel s e) with
      | (s, .error err) => (s, .error err)
      | (s, .ok e2) => parseExpressionLoop fuel s curPrec e2
    else (s, .ok e)

/-- `Parser::parse_prefix_expression` (`!x`, `-x`): operand parsed at
`Prefix` precedence (6). -/
def parseUnaryExpression : Nat → ParserState → ParserState × Except ParseError Expression
  | 0, s => (s, .error .expectedOperator)
  | fuel + 1, s =>
    match operatorOfToken s.current with
    | .error e => (s, .error e)
    | .ok op =>
      let s := s.step
      match parseExpression fuel s 6 with
      | (s, .error e) => (s, .error e)
      | (s, .ok r) => (s, .ok (.preOp op r))

/-- `Parser::parse_infix_expression`: record the operator and its precedence,
step, parse the right operand at that precedence (left-associativity). -/
def parseBinExpression : Nat → ParserState → Expression → ParserState × Except ParseError Expression
  | 0, s, _ => (s, .error .expectedOperator)
  | fuel + 1, s, left =>
    let prec := s.current.precedence
    match operatorOfToken s.current with
    | .error e => (s, .error e)
    | .ok op =>
      let s := s.step
      match parseExpression fuel s prec with
      | (s, .error e) => (s, .error e)
      | (s, .ok right) => (s, .ok (.binOp left op right))

/-- `Parser::parse_grouped_expression`: `(` expr `)`. -/
def parseGroupedExpression : Nat → ParserState → ParserState × Except ParseError Expression
  | 0, s => (s, .error .expectedOperator)
  | fuel + 1, s =>
    let s := s.step
    match parseExpression fuel s 1 with
    | (s, .error e) => (s, .error e)
    | (s, .ok e) =>
      match expectNext s .closeParen with
      | (s, some err) => (s, .error err)
      | (s, none) => (s, .ok e)

/-- `Parser::parse_if_expression`. -/
def parseIfExpression : Nat → ParserState → ParserState × Except ParseError Expression
  | 0, s => (s, .error .expectedOperator)
  | fuel + 1, s =>
    match expectNext s .openParen with
    | (s, some e) => (s, .error e)
    | (s, none) =>
      let s := s.step
      match parseExpression fuel s 1 with
      | (s, .error e) => (s, .error e)
      | (s, .ok condition) =>
        match expectNext s .closeParen with
        | (s, some e) => (s, .error e)
        | (s, none) =>
          match expectNext s .openCurly with
          | (s, some e) => (s, .error e)
          | (s, none) =>
            match parseBlock fuel s with
            | (s, .error e) => (s, .error e)
            | (s, .ok consequence) =>
              if s.peek.is .elseTok then
                let s := s.step
                match expectNext s .openCurly with
                | (s, some e) => (s, .error e)
                | (s, none) =>
                  match parseBlock fuel s with
                  | (s, .error e) => (s, .error e)
                  | (s, .ok alt) =>
                    (s, .ok (.ifExpr condition consequence (some alt)))
              else (s, .ok (.ifExpr condition consequence none))

/-- `Parser::parse_function_literal_expression`. -/
def parseFunctionLiteralExpression : Nat → ParserState → ParserState × Except ParseError Expression
  | 0, s => (s, .error .expectedOperator)
  | fuel + 1, s =>
    match expectNext s .openParen with
    | (s, some e) => (s, .error e)
    | (s, none) =>
      match parseFunctionParameters fuel s with
      | (s, .error e) => (s, .error e)
      | (s, .ok params) =>
        match expectNext s .openCurly with
        | (s, some e) => (s, .error e)
        | (s, none) =>
          match parseBlock fuel s with
          | (s, .error e) => (s, .error e)
          | (s, .ok body) => (s, .ok (.funcLiteral params body))

/-- `Parser::parse_function_parameters`: empty list when `)` is next,
otherwise an identifier list with `expect_ident` checks. -/
def parseFunctionParameters : Nat → ParserState → ParserState × Except ParseError (List Expression)
  | 0, s => (s, .error .expectedOperator)
  | fuel + 1, s =>
    if s.peek.is .closeParen then (s.step, .ok [])
    else
      match expectIdent s with
      | (s, some e) => (s, .error e)
      | (s, none) => parseFunctionParametersLoop fuel s []

/-- The `while` loop of `parse_function_parameters`. -/
def parseFunctionParametersLoop : Nat → ParserState → List Expression → ParserState × Except ParseError (List Expression)
  | 0, s, _ => (s, .error .expectedOperator)
  | fuel + 1, s, acc =>
    if s.current.is .closeParen then (s, .ok acc)
    else
      match parseExpression fuel s 1 with
      | (s, .error e) => (s, .error e)
      | (s, .ok p) =>
        if s.peek.is .comma then
          let s := s.step
          match expectIdent s with
          | (s, some e) => (s, .error e)
          | (s, none) => parseFunctionParametersLoop fuel s (acc ++ [p])
        else
          match expectNext s .closeParen with
          | (s, some e) => (s, .error e)
          | (s, none) => parseFunctionParametersLoop fuel s (acc ++ [p])

/-- `Parser::parse_function_call_expression`. -/
def parseFunctionCallExpression : Nat → ParserState → Expression → ParserState × Except ParseError Expression
  | 0, s, _ => (s, .error .expectedOperator)
  | fuel + 1, s, function =>
    match parseFunctionCallArguments fuel s with
    | (s, .error e) => (s, .error e)
    | (s, .ok args) => (s, .ok (.call function args))

/-- `Parser::parse_function_call_arguments`. -/
def parseFunctionCallArguments : Nat → ParserState → ParserState × Except ParseError (List Expression)
  | 0, s => (s, .error .expectedOperator)
  | fuel + 1, s =>
    if s.peek.is .closeParen then (s.step, .ok [])
    else
      let s := s.step
      parseFunctionCallArgumentsLoop fuel s []

/-- The `while` loop of `parse_function_call_arguments`. -/
def parseFunctionCallArgumentsLoop : Nat → ParserState → List Expression → ParserState × Except ParseError (List Expression)
  | 0, s, _ => (s, .error .expectedOperator)
  | fuel + 1, s, acc =>
    if s.current.is .closeParen then (s, .ok acc)
    else
      match parseExpression fuel s 1 with
      | (s, .error e) => (s, .error e)
      | (s, .ok a) =>
        if s.peek.is .comma then
          let s := s.step
          let s := s.step
          parseFunctionCallArgumentsLoop fuel s (acc ++ [a])
        else
          match expectNext s .closeParen with
          | (s, some e) => (s, .error e)
          | (s, none) => parseFunctionCallArgumentsLoop fuel s (acc ++ [a])

end

/-- The `while` loop of `Parser::parse_program`. -/
def parseProgramLoop : Nat → ParserState → List Statement → List Statement × List ParseError
  | 0, s, acc => (acc, s.errors)
  | fuel + 1, s, acc =>
    if s.current.is .eof then (acc, s.errors)
    else
      match parseStatement fuel s with
      | (s, stOpt) =>
        let acc := match stOpt with
          | some st => acc ++ [st]
          | none => acc
        parseProgramLoop fuel s.step acc

/-- Fuel used by the top-level entry points below: enough for the deepest
call chain any input in this file produces. -/
def parseFuel : Nat := 96

/-- The full pipeline `Lexer::new` + `Parser::new` + `Parser::parse_program`:
the program's statements and the collected parse errors. -/
def parseProgram (input : List Nat) : List Statement × List ParseError :=
  parseProgramLoop parseFuel (ParserState.new (tokensAll input)) []

/-! ## Display rendering (src/ast.rs `impl Display`) -/

/-- Decimal rendering of an integer, as Rust `{}` formats an `i32`. -/
def intToString (i : Int) : String :=
  if i < 0 then "-" ++ Nat.repr i.natAbs else Nat.repr i.toNat

/-- `impl Display for Operator`. -/
def displayOperator (op : Operator) : String :=
  match op with
  | .bang => "!"
  | .plus => "+"
  | .minus => "-"
  | .multiplication => "*"
  | .division => "/"
  | .greaterThan => ">"
  | .lessThan => "<"
  | .equals => "=="
  | .notEquals => "!="

mutual

/-- `impl Display for Expr` (src/ast.rs): the canonical fully-parenthesized
rendering; prefix nodes render `({op}{right})`, infix nodes
`({left} {op} {right})`.  The fuel argument gives structural termination over
the nested AST; the wrappers below supply `sizeOf`, which bounds the depth,
so the sentinel `""` at fuel 0 is never produced. -/
def displayExpressionF : Nat → Expression → String
  | 0, _ => ""
  | fuel + 1, e =>
    match e with
    | .ident s => s
    | .intLiteral i => intToString i
    | .booleanLiteral b => if b then "true" else "false"
    | .preOp op r => "(" ++ displayOperator op ++ displayExpressionF fuel r ++ ")"
    | .binOp l op r =>
      "(" ++ displayExpressionF fuel l ++ " " ++ displayOperator op ++ " " ++
        displayExpressionF fuel r ++ ")"
    | .ifExpr c cons alt =>
      "if " ++ displayExpressionF fuel c ++ " " ++ displayStatementsF fuel cons ++
        (match alt with
         | some a => " else " ++ displayStatementsF fuel a
         | none => "")
    | .funcLiteral ps body =>
      "fn(" ++ displayExpressionsF fuel ps ++ ") \x7b " ++ displayStatementsF fuel body ++ " \x7d"
    | .call f args =>
      displayExpressionF fuel f ++ "(" ++ displayExpressionsF fuel args ++ ")"

/-- `impl Display for Stmt`. -/
def displayStatementF : Nat → Statement → String
  | 0, _ => ""
  | fuel + 1, st =>
    match st with
    | .letStmt n v => "let " ++ n ++ " = " ++ displayExpressionF fuel v ++ ";"
    | .returnStmt v => "return " ++ displayExpressionF fuel v ++ ";"
    | .expression v => displayExpressionF fuel v

/-- `impl Display for Ast`: statements joined by `", "`. -/
def displayStatementsF : Nat → List Statement → String
  | 0, _ => ""
  | fuel + 1, l =>
    match l with
    | [] => ""
    | [st] => displayStatementF fuel st
    | st :: rest => displayStatementF fuel st ++ ", " ++ displayStatementsF fuel rest

/-- `impl Display for ExpressionList`: expressions joined by `", "`. -/
def displayExpressionsF : Nat → List Expression → String
  | 0, _ => ""
  | fuel + 1, l =>
    match l with
    | [] => ""
    | [e] => displayExpressionF fuel e
    | e :: rest => displayExpressionF fuel e ++ ", " ++ displayExpressionsF fuel rest

end

/-- Rendering fuel: far deeper than any AST in this file, so the renderers
below agree with the source `Display` on every term they are applied to. -/
def displayFuel : Nat := 999

/-- `Expr`'s `Display` with sufficient fuel. -/
def displayExpression (e : Expression) : String :=
  displayExpressionF displayFuel e

/-- `Stmt`'s `Display` with sufficient fuel. -/
def displayStatement (st : Statement) : String :=
  displayStatementF displayFuel st

/-! ## Runtime values (src/eval/object.rs) -/

inductive Object where
  | integer (i : Int)
  | boolean (b : Bool)
  | returnValue (o : Object)
  | error (s : String)
  | null
deriving DecidableEq, Repr

/-- `impl Display for Object`. -/
def displayObject : Object → String
  | .integer i => intToString i
  | .boolean b => if b then "true" else "false"
  | .returnValue v => displayObject v
  | .error s => s
  | .null => "null"

/-- `Object::is_truthy`: `Null` and `Boolean(false)` are falsy, everything
else (including `Integer(0)`) is truthy. -/
def Object.is_truthy : Object → Bool
  | .null => false
  | .boolean b => b
  | _ => true

/-- The `i32` range. -/
def inI32 (i : Int) : Bool :=
  decide (-2147483648 ≤ i) && decide (i ≤ 2147483647)

/-! ## Operator evaluation on objects (src/eval/mod.rs)

These embed `eval_plus_infix` .. `eval_not_equal_infix`.  The Rust arithmetic
is unchecked `i32` arithmetic: under the debug profile (the one `cargo test`
uses) `+`, `-`, `*` panic on overflow, and `/` panics on a zero divisor and
on `i32::MIN / -1` in every profile; a panic is modelled as `none`. -/

/-- `eval_plus_infix`. -/
def evalPlus (left right : Object) : Option Object :=
  match left, right with
  | .integer l, .integer r =>
    if inI32 (l + r) then some (.integer (l + r)) else none
  | l, r =>
    some (.error ("Cannot add " ++ displayObject l ++ " to " ++ displayObject r))

/-- `eval_minus_infix`. -/
def evalMinus (left right : Object) : Option Object :=
  match left, right with
  | .integer l, .integer r =>
    if inI32 (l - r) then some (.integer (l - r)) else none
  | l, r =>
    some (.error ("Cannot subtract " ++ displayObject l ++ " from " ++ displayObject r))

/-- `eval_mult_infix`. -/
def evalMult (left right : Object) : Option Object :=
  match left, right with
  | .integer l, .integer r =>
    if inI32 (l * r) then some (.integer (l * r)) else none
  | l, r =>
    some (.error ("Cannot multiply " ++ displayObject l ++ " and " ++ displayObject r))

/-- `eval_div_infix`: unguarded machine division `l / r`, truncating toward
zero; panics (`none`) on a zero divisor and on the lone overflowing case
`i32::MIN / -1`. -/
def evalDiv (left right : Object) : Option Object :=
  match left, right with
  | .integer l, .integer r =>
    if r = 0 ∨ (l = -2147483648 ∧ r = -1) then none
    else some (.integer (Int.tdiv l r))
  | l, r =>
    some (.error ("Cannot divide " ++ displayObject l ++ " and " ++ displayObject r))

/-- `eval_less_infix`. -/
def evalLess (left right : Object) : Option Object :=
  match left, right with
  | .integer l, .integer r => some (.boolean (decide (l < r)))
  | l, r =>
    some (.error ("Cannot compare equality between " ++ displayObject l ++ " and " ++ displayObject r))

/-- `eval_greater_infix`. -/
def evalGreater (left right : Object) : Option Object :=
  match left, right with
  | .integer l, .integer r => some (.boolean (decide (r < l)))
  | l, r =>
    some (.error ("Cannot compare equality between " ++ displayObject l ++ " and " ++ displayObject r))

/-- `eval_equal_infix`. -/
def evalEqual (left right : Object) : Option Object :=
  match left, right with
  | .integer l, .integer r => some (.boolean (decide (l = r)))
  | .boolean l, .boolean r => some (.boolean (l == r))
  | l, r =>
    some (.error ("Cannot compare equality between " ++ displayObject l ++ " and " ++ displayObject r))

/-- `eval_not_equal_infix`. -/
def evalNotEqual (left right : Object) : Option Object :=
  match left, right with
  | .integer l, .integer r => some (.boolean (decide (l ≠ r)))
  | .boolean l, .boolean r => some (.boolean (l != r))
  | l, r =>
    some (.error ("Cannot compare equality between " ++ displayObject l ++ " and " ++ displayObject r))

/-- `eval_minus_prefix`: negation requires an integer; `-i32::MIN` overflows
(debug-profile panic, `none`). -/
def evalMinusUnary (value : Object) : Option Object :=
  match value with
  | .integer i => if inI32 (-i) then some (.integer (-i)) else none
  | v => some (.error ("No such negative value of " ++ displayObject v))

/-- Evaluate two already-reduced operands through an operator function,
propagating a panic from either side. -/
def seq2 (a b : Option Object) (k : Object → Object → Option Object) : Option Object :=
  match a, b with
  | some x, some y => k x y
  | _, _ => none

/-! ## The tree-walking evaluator of src/eval/mod.rs

This snapshot has no environment: `Stmt::Let` is `todo!()` (a host panic,
modelled as `none`), and identifier / function-literal / call expressions
fall through to the `Unsupported expression type` error arm. -/

mutual

/-- `eval_statement`.  The fuel argument gives structural termination over
the nested AST (the Rust recursion is structural); fuel exhaustion yields the
panic sentinel `none`, and every theorem below supplies enough fuel. -/
def eval_statement : Nat → Statement → Option Object
  | 0, _ => none
  | fuel + 1, st =>
    match st with
    | .letStmt _ _ => none
    | .returnStmt e =>
      match eval_expression fuel e with
      | none => none
      | some o => some (.returnValue o)
    | .expression e => eval_expression fuel e

/-- `eval_expression`, with `eval_prefix_expression` / `eval_infix_expression`
/ `eval_if_expr` inlined at their unique call sites. -/
def eval_expression : Nat → Expression → Option Object
  | 0, _ => none
  | fuel + 1, e =>
    match e with
    | .intLiteral i => some (.integer i)
    | .booleanLiteral b => some (.boolean b)
    | .preOp op r =>
      match eval_expression fuel r with
      | none => none
      | some operand =>
        match op with
        | .bang => some (.boolean (!operand.is_truthy))
        | .minus => evalMinusUnary operand
        | op => some (.error ("Unsupported operator as prefix: " ++ displayOperator op))
    | .binOp l op r =>
      match op with
      | .plus => seq2 (eval_expression fuel l) (eval_expression fuel r) evalPlus
      | .minus => seq2 (eval_expression fuel l) (eval_expression fuel r) evalMinus
      | .multiplication => seq2 (eval_expression fuel l) (eval_expression fuel r) evalMult
      | .division => seq2 (eval_expression fuel l) (eval_expression fuel r) evalDiv
      | .lessThan => seq2 (eval_expression fuel l) (eval_expression fuel r) evalLess
      | .greaterThan => seq2 (eval_expression fuel l) (eval_expression fuel r) evalGreater
      | .equals => seq2 (eval_expression fuel l) (eval_expression fuel r) evalEqual
      | .notEquals => seq2 (eval_expression fuel l) (eval_expression fuel r) evalNotEqual
      | op => some (.error ("Unsupported operator as infix: " ++ displayOperator op))
    | .ifExpr c cons alt =>
      match eval_expression fuel c with
      | none => none
      | some cv =>
        if cv.is_truthy then eval_block fuel cons
        else
          match alt with
          | some b => eval_block fuel b
          | none => some .null
    | e => some (.error ("Unsupported expression type: " ++ displayExpression e))

/-- `eval_block`: statements in order starting from `Null`, stopping at the
first `ReturnValue` or `Error`, value of the last statement otherwise. -/
def eval_block : Nat → List Statement → Option Object
  | 0, _ => none
  | fuel + 1, stmts => eval_block_from fuel .null stmts

/-- The loop of `eval_block` with the running object value. -/
def eval_block_from : Nat → Object → List Statement → Option Object
  | 0, _, _ => none
  | _ + 1, obj, [] => some obj
  | fuel + 1, _, st :: rest =>
    match eval_statement fuel st with
    | none => none
    | some o =>
      match o with
      | .returnValue v => some (.returnValue v)
      | .error s => some (.error s)
      | o => eval_block_from fuel o rest

end

/-- The loop of `eval_program`: like `eval_block`, but a `ReturnValue` is
unwrapped to its payload. -/
def eval_program_from : Nat → Object → List Statement → Option Object
  | 0, _, _ => none
  | _ + 1, obj, [] => some obj
  | fuel + 1, _, st :: rest =>
    match eval_statement fuel st with
    | none => none
    | some o =>
      match o with
      | .returnValue v => some v
      | .error s => some (.error s)
      | o => eval_program_from fuel o rest

/-- `eval_program`: the top-level evaluation entry point of this snapshot. -/
def eval_program (fuel : Nat) (stmts : List Statement) : Option Object :=
  eval_program_from fuel .null stmts

/-! ## The environment-threaded evaluator

Modelled from the spec: the environment-threaded evaluator (the `Runtime`
whose tests are src/eval/test.rs and whose scope type is
src/eval/env.rs) is not present under src/ — the eval/mod.rs snapshot above
leaves `Stmt::Let` as `todo!()` and has no identifier / function / call
support.  The definitions below follow spec §4.4 (evaluation) and §3
(Environment); `REnv`/`envLookup`/`envSet` embed the `Environment` of
src/eval/env.rs, with `Rc<RefCell<Environment>>` sharing represented by a
heap of frames addressed by index.  Error message texts are those of the
sibling snapshot's operator helpers and of src/eval/test.rs
(`"Identifier not found: <name>"`). -/

/-- Runtime values of the environment-threaded evaluator: `Object` plus the
`Func { params, body, env }` variant of src/eval/test.rs, whose captured
environment is a heap index. -/
inductive RObject where
  | integer (i : Int)
  | boolean (b : Bool)
  | returnValue (o : RObject)
  | error (s : String)
  | null
  | func (params : List Expression) (body : List Statement) (env : Nat)

/-- One `Environment` frame (src/eval/env.rs): a store plus an optional
parent reference. -/
structure REnv where
  store : List (String × RObject)
  parent : Option Nat

/-- Chain lookup, embedding `Environment::get` and `Environment::check_parent`
(src/eval/env.rs): the current frame's store first, then the parent chain
outward.  The fuel bounds the chain length (Rust's `Rc` parent chains are
finite; in every heap built here a parent index is smaller than its child's,
so `heap.length + 1` steps always suffice — see `envGet`). -/
def envLookup : Nat → List REnv → Nat → String → Option RObject
  | 0, _, _, _ => none
  | fuel + 1, heap, idx, key =>
    match heap.get? idx with
    | none => none
    | some env =>
      match env.store.lookup key with
      | some o => some o
      | none =>
        match env.parent with
        | some p => envLookup fuel heap p key
        | none => none

/-- `Environment::get` from the frame `idx` of `heap`. -/
def envGet (heap : List REnv) (idx : Nat) (key : String) : Option RObject :=
  envLookup (heap.length + 1) heap idx key

/-- `Environment::set`: insert into the store of frame `idx` (the `HashMap`
insert overwrites; consing the new binding in front of an association list
looked up front-to-back has the same last-write-wins lookup behaviour). -/
def envSet (heap : List REnv) (idx : Nat) (key : String) (v : RObject) : List REnv :=
  match heap.get? idx with
  | some env => heap.set idx { env with store := (key, v) :: env.store }
  | none => heap

/-- Display form of runtime values (`impl Display for Object`).  The spec
does not give a display form for `Func` values; the placeholder is never
examined by any theorem in this file. -/
def displayRObject : RObject → String
  | .integer i => intToString i
  | .boolean b => if b then "true" else "false"
  | .returnValue v => displayRObject v
  | .error s => s
  | .null => "null"
  | .func _ _ _ => "fn"

/-- Truthiness, spec §4.4: `Null` and `Boolean(false)` are falsy, every other
value is truthy. -/
def RObject.is_truthy : RObject → Bool
  | .null => false
  | .boolean b => b
  | _ => true

/-- Binary operator evaluation on reduced operands, spec §4.4: arithmetic
requires two integers, relational operators yield booleans, equality is also
defined on two booleans, every other combination is an `Error` naming the
operands.  Machine `i32` behaviour (overflow, zero divisor) is modelled as in
the operator helpers above. -/
def rApplyBin (op : Operator) (l r : RObject) : Option RObject :=
  match op, l, r with
  | .plus, .integer a, .integer b =>
    if inI32 (a + b) then some (.integer (a + b)) else none
  | .plus, a, b =>
    some (.error ("Cannot add " ++ displayRObject a ++ " to " ++ displayRObject b))
  | .minus, .integer a, .integer b =>
    if inI32 (a - b) then some (.integer (a - b)) else none
  | .minus, a, b =>
    some (.error ("Cannot subtract " ++ displayRObject a ++ " from " ++ displayRObject b))
  | .multiplication, .integer a, .integer b =>
    if inI32 (a * b) then some (.integer (a * b)) else none
  | .multiplication, a, b =>
    some (.error ("Cannot multiply " ++ displayRObject a ++ " and " ++ displayRObject b))
  | .division, .integer a, .integer b =>
    if b = 0 ∨ (a = -2147483648 ∧ b = -1) then none
    else some (.integer (Int.tdiv a b))
  | .division, a, b =>
    some (.error ("Cannot divide " ++ displayRObject a ++ " and " ++ displayRObject b))
  | .lessThan, .integer a, .integer b => some (.boolean (decide (a < b)))
  | .greaterThan, .integer a, .integer b => some (.boolean (decide (b < a)))
  | .equals, .integer a, .integer b => some (.boolean (decide (a = b)))
  | .equals, .boolean a, .boolean b => some (.boolean (a == b))
  | .notEquals, .integer a, .integer b => some (.boolean (decide (a ≠ b)))
  | .notEquals, .boolean a, .boolean b => some (.boolean (a != b))
  | _, a, b =>
    some (.error ("Cannot compare equality between " ++ displayRObject a ++ " and " ++ displayRObject b))

/-- Unary operator evaluation, spec §4.4: `!` negates truthiness, `-`
requires an integer. -/
def rApplyUnary (op : Operator) (v : RObject) : Option RObject :=
  match op with
  | .bang => some (.boolean (!v.is_truthy))
  | .minus =>
    match v with
    | .integer i => if inI32 (-i) then some (.integer (-i)) else none
    | v => some (.error ("No such negative value of " ++ displayRObject v))
  | op => some (.error ("Unsupported operator as prefix: " ++ displayOperator op))

/-- Parameter name of a function-literal parameter node (the parser only puts
`Ident` nodes in parameter lists). -/
def paramName : Expression → String
  | .ident s => s
  | _ => ""

mutual

/-- Statement evaluation, spec §4.4: `Let` binds in the current frame and
yields the bound value unless the value is a propagating sentinel; `Return`
wraps in `ReturnValue` unless the result is an `Error`. -/
def revalStatement : Nat → List REnv → Nat → Statement → List REnv × Option RObject
  | 0, heap, _, _ => (heap, none)
  | fuel + 1, heap, env, st =>
    match st with
    | .letStmt name value =>
      match revalExpression fuel heap env value with
      | (heap, none) => (heap, none)
      | (heap, some v) =>
        match v with
        | .error s => (heap, some (.error s))
        | .returnValue r => (heap, some (.returnValue r))
        | v => (envSet heap env name v, some v)
    | .returnStmt e =>
      match revalExpression fuel heap env e with
      | (heap, none) => (heap, none)
      | (heap, some v) =>
        match v with
        | .error s => (heap, some (.error s))
        | v => (heap, some (.returnValue v))
    | .expression e => revalExpression fuel heap env e
termination_by structural fuel _ _ _ => fuel

/-- Expression evaluation, spec §4.4. -/
def revalExpression : Nat → List REnv → Nat → Expression → List REnv × Option RObject
  | 0, heap, _, _ => (heap, none)
  | fuel + 1, heap, env, e =>
    match e with
    | .ident name =>
      match envGet heap env name with
      | some v => (heap, some v)
      | none => (heap, some (.error ("Identifier not found: " ++ name)))
    | .intLiteral i => (heap, some (.integer i))
    | .booleanLiteral b => (heap, some (.boolean b))
    | .preOp op r =>
      match revalExpression fuel heap env r with
      | (heap, none) => (heap, none)
      | (heap, some v) =>
        match v with
        | .error s => (heap, some (.error s))
        | v => (heap, rApplyUnary op v)
    | .binOp l op r =>
      match revalExpression fuel heap env l with
      | (heap, none) => (heap, none)
      | (heap, some lv) =>
        match lv with
        | .error s => (heap, some (.error s))
        | lv =>
          match revalExpression fuel heap env r with
          | (heap, none) => (heap, none)
          | (heap, some rv) =>
            match rv with
            | .error s => (heap, some (.error s))
            | rv => (heap, rApplyBin op lv rv)
    | .ifExpr c cons alt =>
      match revalExpression fuel heap env c with
      | (heap, none) => (heap, none)
      | (heap, some cv) =>
        match cv with
        | .error s => (heap, some (.error s))
        | cv =>
          if cv.is_truthy then revalBlock fuel heap env cons
          else
            match alt with
            | some b => revalBlock fuel heap env b
            | none => (heap, some .null)
    | .funcLiteral ps body => (heap, some (.func ps body env))
    | .call f args =>
      match revalExpression fuel heap env f with
      | (heap, none) => (heap, none)
      | (heap, some fv) =>
        match fv with
        | .error s => (heap, some (.error s))
        | .func ps body closureEnv =>
          match revalArgs fuel heap env args with
          | (heap, none) => (heap, none)
          | (heap, some (.inl sentinel)) => (heap, some sentinel)
          | (heap, some (.inr vals)) =>
            let idx := heap.length
            let heap := heap ++ [⟨(ps.map paramName).zip vals, some closureEnv⟩]
            match revalBlock fuel heap idx body with
            | (heap, none) => (heap, none)
            | (heap, some r) =>
              match r with
              | .returnValue v => (heap, some v)
              | r => (heap, some r)
        | fv => (heap, some (.error (displayRObject fv ++ " is not callable")))
termination_by structural fuel _ _ _ => fuel

/-- Argument evaluation, spec §4.4: left to right in the caller's
environment, propagating the first sentinel (`inl`) immediately. -/
def revalArgs : Nat → List REnv → Nat → List Expression → List REnv × Option (RObject ⊕ List RObject)
  | 0, heap, _, _ => (heap, none)
  | _ + 1, heap, _, [] => (heap, some (.inr []))
  | fuel + 1, heap, env, a :: rest =>
    match revalExpression fuel heap env a with
    | (heap, none) => (heap, none)
    | (heap, some v) =>
      match v with
      | .error s => (heap, some (.inl (.error s)))
      | v =>
        match revalArgs fuel heap env rest with
        | (heap, none) => (heap, none)
        | (heap, some (.inl sentinel)) => (heap, some (.inl sentinel))
        | (heap, some (.inr vs)) => (heap, some (.inr (v :: vs)))
termination_by structural fuel _ _ _ => fuel

/-- Block evaluation, spec §4.4: statements in order from `Null`, stopping at
the first `ReturnValue` or `Error`. -/
def revalBlock : Nat → List REnv → Nat → List Statement → List REnv × Option RObject
  | 0, heap, _, _ => (heap, none)
  | fuel + 1, heap, env, stmts => revalBlockFrom fuel heap env .null stmts
termination_by structural fuel _ _ _ => fuel

/-- The loop of `revalBlock` with the running value. -/
def revalBlockFrom : Nat → List REnv → Nat → RObject → List Statement → List REnv × Option RObject
  | 0, heap, _, _, _ => (heap, none)
  | _ + 1, heap, _, obj, [] => (heap, some obj)
  | fuel + 1, heap, env, _, st :: rest =>
    match revalStatement fuel heap env st with
    | (heap, none) => (heap, none)
    | (heap, some o) =>
      match o with
      | .returnValue v => (heap, some (.returnValue v))
      | .error s => (heap, some (.error s))
      | o => revalBlockFrom fuel heap env o rest
termination_by structural fuel _ _ _ _ => fuel

end

/-- Top-level evaluation with a fresh root environment (`Runtime::new` +
`evaluate` in src/eval/test.rs): evaluate the program as a block and unwrap a
top-level `ReturnValue`. -/
def revalProgram (fuel : Nat) (stmts : List Statement) : Option RObject :=
  match revalBlock fuel [⟨[], none⟩] 0 stmts with
  | (_, none) => none
  | (_, some o) =>
    match o with
    | .returnValue v => some v
    | o => some o

/-! ## General lemmas used by the claim theorems -/

theorem isIdentChar_eq_false_of_digit {b : Nat} (h : isDigit b = true) :
    isIdentChar b = false := by
  simp [isDigit] at h
  simp [isIdentChar, isLetter]
  omega

theorem isWhitespace_eq_false_of_digit {b : Nat} (h : isDigit b = true) :
    isWhitespace b = false := by
  simp [isDigit] at h
  simp [isWhitespace]
  omega

/-- Scanning from a digit byte produces the maximal digit run as an `Int`
token (the `b'0'..=b'9'` arm of `next_token`). -/
theorem scanToken_digit {b : Nat} {rest : List Nat} (h : isDigit b = true) :
    scanToken (b :: rest) =
      (.int ((b :: rest).takeWhile isDigit), (b :: rest).dropWhile isDigit) := by
  have hb : 48 ≤ b ∧ b ≤ 57 := by simpa [isDigit] using h
  unfold scanToken
  split
  · rename_i heq
    exact absurd heq (by simp)
  rename_i b2 rest2 heq
  injection heq with hb2 hr2
  subst hb2
  subst hr2
  split
  all_goals try (rename_i heq; omega)
  simp [isIdentChar_eq_false_of_digit h, h]

theorem takeWhile_all {p : Nat → Bool} :
    ∀ l : List Nat, (∀ b ∈ l, p b = true) → l.takeWhile p = l := by
  intro l h
  induction l with
  | nil => rfl
  | cons x t ih =>
    rw [List.takeWhile_cons_of_pos (h x (by simp))]
    rw [ih (fun b hb => h b (by simp [hb]))]

theorem dropWhile_all {p : Nat → Bool} :
    ∀ l : List Nat, (∀ b ∈ l, p b = true) → l.dropWhile p = [] := by
  intro l h
  induction l with
  | nil => rfl
  | cons x t ih =>
    rw [List.dropWhile_cons_of_pos (h x (by simp))]
    exact ih (fun b hb => h b (by simp [hb]))

/-- A nonempty all-digit input lexes, for the parser, to the single `Int`
token carrying the whole input. -/
theorem tokensAll_digits (ds : List Nat) (hne : ds ≠ [])
    (hdig : ∀ b ∈ ds, isDigit b = true) :
    tokensAll ds = [Token.int ds] := by
  rcases ds with _ | ⟨d, rest⟩
  · exact absurd rfl hne
  have hd : isDigit d = true := hdig d (by simp)
  unfold tokensAll
  show tokensAllF (rest.length + 2) (d :: rest) = _
  rw [tokensAllF]
  rw [if_neg (by simp)]
  have hnt : nextToken (d :: rest) = (.int (d :: rest), []) := by
    unfold nextToken
    rw [List.dropWhile_cons_of_neg (by rw [isWhitespace_eq_false_of_digit hd]; simp)]
    rw [scanToken_digit hd]
    rw [takeWhile_all _ hdig, dropWhile_all _ hdig]
  rw [hnt]
  rw [tokensAllF]
  simp

theorem eof_is_eof : Token.eof.is .eof = true := rfl

theorem eof_is_semicolon : Token.eof.is .semicolon = false := rfl

theorem int_is_eof (bs : List Nat) : (Token.int bs).is .eof = false := rfl

/-- The parser turns the token stream of an all-digit input whose value the
`i32` conversion accepts into a single integer-literal expression statement
and no errors. -/
theorem parseProgram_single_int (ds : List Nat) (v : Int) (hv : parseI32 ds = some v)
    (hne : ds ≠ []) (hdig : ∀ b ∈ ds, isDigit b = true) :
    parseProgram ds = ([Statement.expression (Expression.intLiteral v)], []) := by
  have hexp : parseExpression 93 (⟨[], .int ds, .eof, []⟩ : ParserState) 1
      = (⟨[], .int ds, .eof, []⟩, .ok (.intLiteral v)) := by
    rw [show (93 : Nat) = 92 + 1 from rfl, parseExpression]
    simp only [hv]
    rfl
  have hstmt : parseStatement 95 (⟨[], .int ds, .eof, []⟩ : ParserState)
      = (⟨[], .int ds, .eof, []⟩, some (.expression (.intLiteral v))) := by
    rw [show (95 : Nat) = 94 + 1 from rfl, parseStatement]
    simp only [parseExpressionStatement, hexp, eof_is_semicolon]
    rfl
  unfold parseProgram
  rw [tokensAll_digits ds hne hdig]
  show parseProgramLoop 96 (⟨[], .int ds, .eof, []⟩ : ParserState) [] = _
  rw [show (96 : Nat) = 95 + 1 from rfl, parseProgramLoop]
  rw [hstmt]
  rfl

theorem lookupIdentifier_ne_eof (bs : List Nat) : lookupIdentifier bs ≠ .eof := by
  unfold lookupIdentifier
  split_ifs <;> simp

/-- The remainder after one `next_token` is a sublist of the remainder
before it. -/
theorem scanToken_snd_sublist (l : List Nat) : (scanToken l).2.Sublist l := by
  cases l with
  | nil => simp [scanToken]
  | cons b rest =>
    unfold scanToken
    split
    · rename_i heq
      exact absurd heq (by simp)
    rename_i b2 rest2 heq
    injection heq with hb2 hr2
    subst hb2
    subst hr2
    split
    all_goals try exact List.sublist_cons_self _ _
    all_goals try (split
                   · rename_i rest2b
                     exact (List.sublist_cons_self 61 rest2b).cons _
                   · exact List.sublist_cons_self _ _)
    split
    · exact List.dropWhile_sublist isIdentChar
    split
    · exact List.dropWhile_sublist isDigit
    · exact List.sublist_cons_self _ _

theorem nextToken_snd_sublist (rem : List Nat) : (nextToken rem).2.Sublist rem :=
  (scanToken_snd_sublist _).trans (List.dropWhile_sublist isWhitespace)

/-- On a NUL-free remainder, a scan that yields `Eof` has consumed
everything: the scan reached the end of the buffer. -/
theorem scanToken_eof_nil {l : List Nat} (hnul : ∀ b ∈ l, b ≠ 0)
    (h : (scanToken l).1 = .eof) : (scanToken l).2 = [] := by
  cases l with
  | nil => rfl
  | cons b rest =>
    exfalso
    have hb : b ≠ 0 := hnul b (by simp)
    unfold scanToken at h
    split at h
    · rename_i heq
      exact absurd heq (by simp)
    rename_i b2 rest2 heq
    injection heq with hb2 hr2
    subst hb2
    subst hr2
    split at h
    all_goals try (exact hb rfl)
    all_goals try (simp at h)
    all_goals try (split at h <;> simp at h)
    split at h
    · simp at h
      exact lookupIdentifier_ne_eof _ h
    split at h <;> simp at h

/-- On NUL-free input, `next_token` yields `Eof` only with an empty
remainder left. -/
theorem nextToken_eof {rem : List Nat} (hnul : ∀ b ∈ rem, b ≠ 0)
    (h : (nextToken rem).1 = .eof) : (nextToken rem).2 = [] := by
  unfold nextToken at h ⊢
  exact scanToken_eof_nil
    (fun b hb => hnul b ((List.dropWhile_sublist isWhitespace).subset hb)) h

theorem tokensIterF_nil (f : Nat) : tokensIterF f [] = [] := by
  cases f <;> rfl

/-- On NUL-free input, every token before the last one is not `Eof`. -/
theorem tokensIterF_dropLast_count :
    ∀ fuel rem, rem.length < fuel → (∀ b ∈ rem, b ≠ 0) →
      (tokensIterF fuel rem).dropLast.count Token.eof = 0 := by
  intro fuel
  induction fuel with
  | zero => intro rem h _; omega
  | succ f ih =>
    intro rem hlen hnul
    rw [tokensIterF]
    by_cases hch : (chOf rem == 0) = true
    · rw [if_pos hch]
      simp
    rw [if_neg hch]
    have hne : rem ≠ [] := by rintro rfl; simp [chOf] at hch
    have hlt := nextToken_length_lt hne
    have hnul2 : ∀ b ∈ (nextToken rem).2, b ≠ 0 :=
      fun b hb => hnul b ((nextToken_snd_sublist rem).subset hb)
    by_cases heof : (nextToken rem).1 = Token.eof
    · rw [heof, nextToken_eof hnul heof, tokensIterF_nil]
      simp
    have ih2 := ih (nextToken rem).2 (by omega) hnul2
    cases h3 : tokensIterF f (nextToken rem).2 with
    | nil => simp
    | cons t ts =>
      rw [h3] at ih2
      simp only [List.dropLast_cons₂, List.count_cons]
      simp [heof, ih2]

/-- A list whose non-final elements contain no `Eof` holds at most one. -/
theorem count_le_of_dropLast (l : List Token)
    (h : l.dropLast.count Token.eof = 0) : l.count Token.eof ≤ 1 := by
  induction l with
  | nil => simp
  | cons x t ih =>
    cases t with
    | nil =>
      have hone := List.count_le_length Token.eof [x]
      simpa using hone
    | cons y t2 =>
      rw [List.dropLast_cons₂, List.count_cons] at h
      rw [List.count_cons]
      have hih := ih (by omega)
      omega

/-! ## The claims -/

/-- C1: evaluating
`let newAdder = fn(x) { fn(y) { x + y }; }; let addTwo = newAdder(2);
addTwo(3);` through the full pipeline (tokenize, parse with no errors, then
evaluate with the environment-threaded evaluator) yields `Integer 5`: the
inner function retains the binding of `x` from the outer call after the
outer call has returned. -/
theorem c1_closure_evaluates_to_five :
    (parseProgram (strBytes "let newAdder = fn(x) { fn(y) { x + y }; }; let addTwo = newAdder(2); addTwo(3);")).2 = [] ∧
    revalProgram 99 (parseProgram (strBytes "let newAdder = fn(x) { fn(y) { x + y }; }; let addTwo = newAdder(2); addTwo(3);")).1
      = some (RObject.integer 5) :=
  ⟨rfl, rfl⟩

/-- C2 counterexample: the decimal digit string `3000000000` fits in an
`i64` (it is at most `2^63 - 1`), yet the parser produces no `IntLiteral`
for it: the integer conversion fails with `ParseIntError`, because the AST
literal type is `i32`. -/
theorem c2_counterexample :
    parseProgram (strBytes "3000000000")
      = ([], [ParseError.parseIntError (strBytes "3000000000")]) ∧
    (3000000000 : Int) ≤ 9223372036854775807 :=
  ⟨rfl, by decide⟩

/-- C2 amended: AST integer literals and runtime integer values are 32-bit
(`i32`): for every decimal digit string whose value fits in `i32` (at most
2147483647), the parser produces an `IntLiteral` carrying that value with no
parse error, and evaluating the parsed program yields `Integer` of the same
value. -/
theorem c2_amended (ds : List Nat) (hne : ds ≠ [])
    (hdig : ∀ b ∈ ds, isDigit b = true) (hval : digitsVal ds ≤ 2147483647) :
    parseProgram ds
      = ([Statement.expression (Expression.intLiteral (Int.ofNat (digitsVal ds)))], []) ∧
    eval_program 99 (parseProgram ds).1
      = some (Object.integer (Int.ofNat (digitsVal ds))) := by
  have hv : parseI32 ds = some (Int.ofNat (digitsVal ds)) := by
    unfold parseI32
    rw [if_pos ⟨hne, hdig, hval⟩]
  have hp := parseProgram_single_int ds (Int.ofNat (digitsVal ds)) hv hne hdig
  refine ⟨hp, ?_⟩
  rw [hp]
  rfl

/-- C2 witness: the digit string `5` parses to `IntLiteral 5` and evaluates
to `Integer 5`. -/
theorem c2_amended_witness :
    parseProgram (strBytes "5") = ([Statement.expression (Expression.intLiteral 5)], []) ∧
    eval_program 99 (parseProgram (strBytes "5")).1 = some (Object.integer 5) :=
  c2_amended (strBytes "5") (by decide) (by decide) (by decide)

/-- C3 counterexample: the token sequence does not always end in exactly one
`Eof`: over the `Iterator` implementation the empty input yields the empty
sequence, and the input `a` (ending mid-token) yields only the identifier
token — in neither case does the sequence end in an `Eof`. -/
theorem c3_counterexample :
    tokenize [] = [] ∧
    tokenize (strBytes "a") = [Token.ident (strBytes "a")] ∧
    (tokenize (strBytes "a")).getLast? ≠ some Token.eof :=
  ⟨rfl, rfl, by decide⟩

/-- C3 amended: tokenizing is a pure function of the input (so two runs
agree definitionally), the sequence is finite, and for every NUL-free input
it contains at most one end-of-input token, which can only be the final
element; an input ending in whitespace produces exactly one trailing `Eof`,
while the empty input or an input ending mid-token produce none. -/
theorem c3_amended (input : List Nat) (hnul : ∀ b ∈ input, b ≠ 0) :
    (tokenize input).dropLast.count Token.eof = 0 ∧
    (tokenize input).count Token.eof ≤ 1 := by
  have h1 : (tokenize input).dropLast.count Token.eof = 0 :=
    tokensIterF_dropLast_count (input.length + 1) input (by omega) hnul
  exact ⟨h1, count_le_of_dropLast _ h1⟩

/-- C3 witness: the input `a ` (with trailing whitespace) has no `Eof`
before its final token and at most one `Eof` overall — concretely its
sequence is `[Ident "a", Eof]`. -/
theorem c3_amended_witness :
    (tokenize (strBytes "a ")).dropLast.count Token.eof = 0 ∧
    (tokenize (strBytes "a ")).count Token.eof ≤ 1 :=
  c3_amended (strBytes "a ") (by decide)

/-- C4: for the spec's precedence table, parsing each input and rendering
every resulting statement through the canonical fully-parenthesized
`Display` form yields exactly the expected string: `-a * b` renders as
`((-a) * b)`, `a + b * c + d / e - f` as `(((a + (b * c)) + (d / e)) - f)`,
and `!(true == true)` as `(!(true == true))`, each parse reporting no
errors. -/
theorem c4_precedence_rendering :
    ((parseProgram (strBytes "-a * b")).1.map displayStatement = ["((-a) * b)"] ∧
      (parseProgram (strBytes "-a * b")).2 = []) ∧
    ((parseProgram (strBytes "a + b * c + d / e - f")).1.map displayStatement
        = ["(((a + (b * c)) + (d / e)) - f)"] ∧
      (parseProgram (strBytes "a + b * c + d / e - f")).2 = []) ∧
    ((parseProgram (strBytes "!(true == true)")).1.map displayStatement
        = ["(!(true == true))"] ∧
      (parseProgram (strBytes "!(true == true)")).2 = []) :=
  ⟨⟨rfl, rfl⟩, ⟨rfl, rfl⟩, ⟨rfl, rfl⟩⟩

/-- C5 counterexample: a `Return` statement whose expression evaluates to an
`Error` does not return the `Error` unchanged — `eval_statement` wraps it in
a `ReturnValue`. -/
theorem c5_counterexample :
    eval_statement 9 (Statement.returnStmt
        (Expression.binOp (Expression.intLiteral 5) Operator.plus (Expression.booleanLiteral true)))
      = some (Object.returnValue (Object.error "Cannot add 5 to true")) ∧
    some (Object.returnValue (Object.error "Cannot add 5 to true"))
      ≠ some (Object.error "Cannot add 5 to true") :=
  ⟨rfl, by decide⟩

/-- C5 amended: `Return` evaluates the inner expression and wraps the result
in `ReturnValue` unconditionally, `Error` included; an `Error` produced by
the returned expression nonetheless surfaces unwrapped as the program's
overall result, because `eval_program` unwraps the `ReturnValue` sentinel. -/
theorem c5_amended (fuel : Nat) (e : Expression) (m : String)
    (h : eval_expression fuel e = some (Object.error m)) :
    eval_statement (fuel + 1) (Statement.returnStmt e)
        = some (Object.returnValue (Object.error m)) ∧
    eval_program (fuel + 2) [Statement.returnStmt e] = some (Object.error m) := by
  constructor
  · rw [eval_statement]
    rw [h]
  · rw [eval_program, eval_program_from, eval_statement]
    rw [h]

/-- C5 witness: `return 5 + true;` wraps the addition type error in a
`ReturnValue` at statement level and yields the bare error at program
level. -/
theorem c5_amended_witness :
    eval_statement 10 (Statement.returnStmt
        (Expression.binOp (Expression.intLiteral 5) Operator.plus (Expression.booleanLiteral true)))
      = some (Object.returnValue (Object.error "Cannot add 5 to true")) ∧
    eval_program 11 [Statement.returnStmt
        (Expression.binOp (Expression.intLiteral 5) Operator.plus (Expression.booleanLiteral true))]
      = some (Object.error "Cannot add 5 to true") :=
  c5_amended 9 _ "Cannot add 5 to true" rfl

/-- C6: for every identifier whose name is bound in no frame of the
environment chain (the `Environment::get` / `check_parent` walk from the
current frame outward returns nothing), evaluation returns the normal value
`Error ("Identifier not found: <name>")` — a `some` result, not the host
panic `none`. -/
theorem c6_identifier_not_found (fuel : Nat) (heap : List REnv) (env : Nat)
    (name : String) (h : envGet heap env name = none) :
    revalExpression (fuel + 1) heap env (Expression.ident name)
      = (heap, some (RObject.error ("Identifier not found: " ++ name))) := by
  rw [revalExpression]
  rw [h]

/-- C6 witness: looking up `foobar` in a fresh root environment yields the
identifier-not-found error. -/
theorem c6_identifier_not_found_witness :
    revalExpression 1 [⟨[], none⟩] 0 (Expression.ident "foobar")
      = ([⟨[], none⟩], some (RObject.error "Identifier not found: foobar")) :=
  c6_identifier_not_found 0 [⟨[], none⟩] 0 "foobar" rfl

/-- C7: `5 + true;` parses without error and evaluates to
`Error "Cannot add 5 to true"`, and `5 + true; 5;` yields that same error —
once a statement evaluates to an `Error`, later statements do not run and
the result is never `Integer 5`. -/
theorem c7_type_error_propagation :
    ((parseProgram (strBytes "5 + true;")).2 = [] ∧
      eval_program 99 (parseProgram (strBytes "5 + true;")).1
        = some (Object.error "Cannot add 5 to true")) ∧
    ((parseProgram (strBytes "5 + true; 5;")).2 = [] ∧
      eval_program 99 (parseProgram (strBytes "5 + true; 5;")).1
        = some (Object.error "Cannot add 5 to true") ∧
      eval_program 99 (parseProgram (strBytes "5 + true; 5;")).1
        ≠ some (Object.integer 5)) :=
  ⟨⟨rfl, rfl⟩, rfl, rfl, by decide⟩

/-- C8 counterexample: parsing `let = 5; let y y 10;` accumulates three
parse errors, not two — after the first malformed `let` the parser
resynchronizes on the leftover `=` token and records a cascade
`ExpectedExpression` error in addition to the two diagnostics. -/
theorem c8_counterexample :
    (parseProgram (strBytes "let = 5; let y y 10;")).2
      = [ParseError.expectedIdentifier, ParseError.expectedExpression,
         ParseError.unexpectedToken Token.assign (Token.ident (strBytes "y"))] ∧
    (parseProgram (strBytes "let = 5; let y y 10;")).2.length ≠ 2 :=
  ⟨rfl, by decide⟩

/-- C8 amended: parsing two malformed `let` statements back to back runs to
completion over the entire input (the trailing fragments are recovered as
expression statements), and the error list contains at least one structured
error per malformed statement — `ExpectedIdentifier` for `let = 5;` and
`UnexpectedToken{Assign, Ident y}` for `let y y 10;` — plus one recovery
cascade error (`ExpectedExpression`), three in total. -/
theorem c8_amended :
    (parseProgram (strBytes "let = 5; let y y 10;")).1
      = [Statement.expression (Expression.intLiteral 5),
         Statement.expression (Expression.ident "y"),
         Statement.expression (Expression.intLiteral 10)] ∧
    (parseProgram (strBytes "let = 5; let y y 10;")).2
      = [ParseError.expectedIdentifier, ParseError.expectedExpression,
         ParseError.unexpectedToken Token.assign (Token.ident (strBytes "y"))] :=
  ⟨rfl, rfl⟩

/-- C9 counterexample: `if (x) { }` does not parse to an empty block with no
errors — `parse_block` rejects a block with zero statements, so the parse
yields no statements and the error `ExpectedStatement`. -/
theorem c9_counterexample :
    parseProgram (strBytes "if (x) { }") = ([], [ParseError.expectedStatement]) :=
  rfl

/-- C9 amended: braced blocks require at least one statement: parsing
`if (x) { }` or `fn() { }` produces `ParseError::ExpectedStatement` and no
program, while a one-statement block such as `if (x) { 1 }` parses
cleanly. -/
theorem c9_amended :
    parseProgram (strBytes "if (x) { }") = ([], [ParseError.expectedStatement]) ∧
    parseProgram (strBytes "fn() { }") = ([], [ParseError.expectedStatement]) ∧
    parseProgram (strBytes "if (x) { 1 }")
      = ([Statement.expression (Expression.ifExpr (Expression.ident "x")
            [Statement.expression (Expression.intLiteral 1)] none)], []) :=
  ⟨rfl, rfl, rfl⟩

/-- C10 counterexample: with the nonzero divisor `-1` and dividend
`-2147483648` (= `i32::MIN`), the division does not produce the Integer of
the truncating quotient — the overflowing `i32` division panics at the host
level (modelled `none`). -/
theorem c10_counterexample :
    evalDiv (Object.integer (-2147483648)) (Object.integer (-1)) = none ∧
    evalDiv (Object.integer (-2147483648)) (Object.integer (-1))
      ≠ some (Object.integer (Int.tdiv (-2147483648) (-1))) :=
  ⟨rfl, by decide⟩

/-- C10 amended: when both operands of `/` are Integers, the unguarded
machine division panics at the host level (never an `Error` object) when the
divisor is zero, and also in the lone overflowing case `-2147483648 / -1`;
for every other nonzero divisor the result is the Integer of the truncating
machine quotient. -/
theorem c10_amended :
    (∀ l : Int, evalDiv (Object.integer l) (Object.integer 0) = none) ∧
    (∀ l r : Int, r ≠ 0 → ¬(l = -2147483648 ∧ r = -1) →
      evalDiv (Object.integer l) (Object.integer r)
        = some (Object.integer (Int.tdiv l r))) := by
  constructor
  · intro l
    simp [evalDiv]
  · intro l r h1 h2
    show (if r = 0 ∨ (l = -2147483648 ∧ r = -1) then none
          else some (Object.integer (Int.tdiv l r)))
        = some (Object.integer (Int.tdiv l r))
    rw [if_neg]
    rintro (rfl | hc)
    · exact h1 rfl
    · exact h2 hc

/-- C10 witness: dividing by zero panics (`none`), and `-7 / 2` is the
truncating quotient `-3`. -/
theorem c10_amended_witness :
    evalDiv (Object.integer 7) (Object.integer 0) = none ∧
    evalDiv (Object.integer (-7)) (Object.integer 2) = some (Object.integer (-3)) :=
  ⟨c10_amended.1 7,
    (c10_amended.2 (-7) 2 (by decide) (by decide)).trans (by decide)⟩

end Monkey
